import Mathlib

/-!
Verification of the two-step BMS requirements form (`bms_requirements_app.py`).

The session model of the application is shallowly embedded: the answer
mapping is an association list from field keys to JSON-like dynamic values,
Python truthiness and numeric coercions are made explicit, machine floats
are modelled as exact decimal rationals `m / 10 ^ e`, and the `try/except`
around the derived-voltage computation is modelled with `Except`.
-/

/-- A JSON-like dynamic value, as stored in the app's answer mapping
(`st.session_state["data"]`).  Python floats are modelled as exact decimal
rationals: `vfloat m e` denotes `m / 10 ^ e`. -/
inductive Value where
  | vnull : Value
  | vbool (b : Bool) : Value
  | vint (n : Int) : Value
  | vfloat (m : Int) (e : Nat) : Value
  | vstr (s : String) : Value
  | vlist (l : List String) : Value
deriving DecidableEq, Repr

/-- The answer mapping: `st.session_state["data"]`, a dict from field key to
value, modelled as an association list in insertion order. -/
abbrev Document := List (String × Value)

/-- Python truthiness (`bool(x)`) on the values that occur in the app. -/
def truthy : Value → Bool
  | .vnull => false
  | .vbool b => b
  | .vint n => n != 0
  | .vfloat m _ => m != 0
  | .vstr s => s != ""
  | .vlist l => !l.isEmpty

/-- Python `a or b`: `a` when truthy, else `b`. -/
def py_or (a b : Value) : Value := if truthy a then a else b

/-- Numeric reading of a value: the operands Python accepts in
`x * y` followed by `round`; booleans count as 0/1, everything else is a
`TypeError` (`none`). -/
def toNum : Value → Option ℚ
  | .vint n => some (n : ℚ)
  | .vfloat m e => some ((m : ℚ) / 10 ^ e)
  | .vbool b => some (if b then 1 else 0)
  | _ => none

/-- Round half to even (Python's rounding of an exact half). -/
def roundHalfEven (q : ℚ) : ℤ :=
  if q - ⌊q⌋ < 1 / 2 then ⌊q⌋
  else if (1 : ℚ) / 2 < q - ⌊q⌋ then ⌊q⌋ + 1
  else if ⌊q⌋ % 2 = 0 then ⌊q⌋ else ⌊q⌋ + 1

/-- Python `round(x, 2)` in exact rational arithmetic. -/
def round2 (q : ℚ) : ℚ := (roundHalfEven (q * 100) : ℚ) / 100

/-- `st.session_state["data"].get(k, default)` (source line 30-31). -/
def kv (d : Document) (k : String) (dflt : Value) : Value :=
  (List.lookup k d).getD dflt

/-- `st.session_state["data"][k] = v` (source line 33-34): dict assignment,
replacing the binding for `k` in place or appending a new one. -/
def set_kv (d : Document) (k : String) (v : Value) : Document :=
  match d with
  | [] => [(k, v)]
  | (k', v') :: t => if k' = k then (k, v) :: t else (k', v') :: set_kv t k v

/-- The fixed chemistry table seeded into the session
(`chem_cell_nominal_map`, source line 13). -/
def chem_defaults : List (String × Value) :=
  [ ("NMC", .vfloat 36 1), ("NCA", .vfloat 36 1), ("LFP", .vfloat 32 1),
    ("LTO", .vfloat 24 1), ("Other", .vfloat 36 1) ]

/-- Python `dict.get(chem, 3.6)` on a string-keyed dict, for hashable
keys only: non-string hashable keys miss and yield the default.  An
unhashable key (a list) makes `dict.get` raise `TypeError`; that raising
path is modelled by `chem_map_get_raising`, which agrees with this
function on every hashable key. -/
def chem_map_get (m : List (String × Value)) (k : Value) (dflt : Value) : Value :=
  match k with
  | .vstr s => (List.lookup s m).getD dflt
  | _ => dflt

/-- Python `dict.get(chem, 3.6)` including its error path: a list key is
unhashable, so `dict.get` raises `TypeError` — and source line 37 runs
*outside* the `try` that starts at line 39, so this error escapes
`calc_nominal_pack_voltage` uncaught. -/
def chem_map_get_raising (m : List (String × Value)) (k : Value) (dflt : Value) :
    Except Unit Value :=
  match k with
  | .vlist _ => .error ()
  | .vstr s => .ok ((List.lookup s m).getD dflt)
  | _ => .ok dflt

/-- The body of `calc_nominal_pack_voltage` before its `try/except`
(source lines 37-40): base lookup, `or`-defaulting and the possibly
raising expression `round((series_cells or 0) * cell_nominal, 2)`. -/
def calc_nominal_pack_voltage_body (m : List (String × Value))
    (series_cells chem cell_nominal_override : Value) : Except Unit ℚ :=
  let base := chem_map_get m chem (.vfloat 36 1)
  let cell_nominal := py_or cell_nominal_override base
  match toNum (py_or series_cells (.vint 0)), toNum cell_nominal with
  | some a, some b => .ok (round2 (a * b))
  | _, _ => .error ()

/-- `calc_nominal_pack_voltage` (source lines 36-42) for hashable
chemistry arguments, on which the line-37 lookup cannot raise: the
`try/except` turns any computation error inside the `try` into `None`.
The exception-aware semantics covering unhashable chemistries as well is
`calc_nominal_pack_voltage_full`. -/
def calc_nominal_pack_voltage (m : List (String × Value))
    (series_cells chem cell_nominal_override : Value) : Option ℚ :=
  match calc_nominal_pack_voltage_body m series_cells chem cell_nominal_override with
  | .ok q => some q
  | .error _ => none

/-- `calc_nominal_pack_voltage` (source lines 36-42) with its uncaught
error path: line 37's table lookup runs before the `try`, so an
unhashable (list) chemistry raises `TypeError` out of the function
(`.error`); otherwise the `try` body either computes a voltage
(`.ok (some q)`) or raises and the `except` returns `None` (`.ok none`). -/
def calc_nominal_pack_voltage_full (m : List (String × Value))
    (series_cells chem cell_nominal_override : Value) : Except Unit (Option ℚ) :=
  match chem_map_get_raising m chem (.vfloat 36 1) with
  | .error e => .error e
  | .ok base =>
    let cell_nominal := py_or cell_nominal_override base
    match toNum (py_or series_cells (.vint 0)), toNum cell_nominal with
    | some a, some b => .ok (some (round2 (a * b)))
    | _, _ => .ok none

/-- Coercion of an optional integer argument into a dynamic value
(`None` or an `int`). -/
def optIntVal : Option Int → Value
  | none => .vnull
  | some n => .vint n

/-- The chemistry base voltage as a rational, for stating the derivation
formula: table value for `c`, defaulting to 3.6. -/
def chem_base_q (c : String) : ℚ :=
  match List.lookup c chem_defaults with
  | some v => (toNum v).getD (36 / 10)
  | none => 36 / 10

/-- Claim C1 as written: effective voltage is the override only when it is
strictly positive, else the chemistry base. -/
def calc_c1_claim (s : Option Int) (c : String) (v : ℚ) : ℚ :=
  round2 ((s.getD 0 : ℚ) * (if 0 < v then v else chem_base_q c))

/-- Clamping a numeric input to a widget domain `[lo, hi]`, as claim C8
describes the setter doing. -/
def clamp_to (lo hi x : ℚ) : ℚ := max lo (min x hi)

/-- The Streamlit session state: the keys `init_state` manages
(`step`, `data`, `chem_cell_nominal_map`, source lines 10-14), each
possibly absent, plus any other keys the framework holds (widget state),
which `reset_form` also deletes. -/
structure SessionState where
  step : Option Int
  data : Option Document
  chem_cell_nominal_map : Option (List (String × Value))
  extra : List (String × Value)
deriving DecidableEq, Repr

/-- Seed one key: keep the current value when the key is present, else
store the default (`if k not in st.session_state`, source lines 15-17). -/
def seedOpt {α : Type} (cur : Option α) (dflt : α) : Option α :=
  match cur with
  | some v => some v
  | none => some dflt

/-- `init_state` (source lines 9-17): seeds `step := 1`, `data := {}` and
the chemistry table, each only when absent; other keys are untouched. -/
def init_state (s : SessionState) : SessionState :=
  { step := seedOpt s.step 1
    data := seedOpt s.data []
    chem_cell_nominal_map := seedOpt s.chem_cell_nominal_map chem_defaults
    extra := s.extra }

/-- The session with no keys at all (a fresh browser session before the
first render pass). -/
def empty_session : SessionState :=
  { step := none, data := none, chem_cell_nominal_map := none, extra := [] }

/-- `for k in list(st.session_state.keys()): del st.session_state[k]`
(source lines 26-27): every key is deleted. -/
def clear_all (_s : SessionState) : SessionState := empty_session

/-- `reset_form` (source lines 25-28): delete every key, then `init_state`. -/
def reset_form (s : SessionState) : SessionState := init_state (clear_all s)

/-- `next_step` (source lines 19-20): `step = min(2, step + 1)`; reading a
missing key is a fault, modelled as `none`. -/
def next_step (s : SessionState) : Option SessionState :=
  s.step.map fun k => { s with step := some (min 2 (k + 1)) }

/-- `prev_step` (source lines 22-23): `step = max(1, step - 1)`. -/
def prev_step (s : SessionState) : Option SessionState :=
  s.step.map fun k => { s with step := some (max 1 (k - 1)) }

/-- Outcome surfaced by the JSON-upload handler: `st.success` on a parsed
document, `st.error` when `json.load` raises (source lines 74-79). -/
inductive LoadOutcome where
  | success : LoadOutcome
  | failure : LoadOutcome
deriving DecidableEq, Repr

/-- The decimal digit characters, by value (used by the number printer). -/
def digitToChar : Nat → Char
  | 0 => '0'
  | 1 => '1'
  | 2 => '2'
  | 3 => '3'
  | 4 => '4'
  | 5 => '5'
  | 6 => '6'
  | 7 => '7'
  | 8 => '8'
  | _ => '9'

/-- Value of a decimal digit character. -/
def charToDigit (c : Char) : Nat := c.toNat - 48

/-- Decimal value of a digit string (most significant first). -/
def digitsToNat (l : List Char) : Nat :=
  l.foldl (fun a c => 10 * a + charToDigit c) 0

/-- Decimal rendering of a natural number. -/
def printNat (n : Nat) : List Char :=
  if n = 0 then [ '0' ] else ((Nat.digits 10 n).map digitToChar).reverse

/-- Decimal rendering of `x` left-padded with zeros to `e` digits (the
fractional part of a float). -/
def printNatPad (e x : Nat) : List Char :=
  List.replicate (e - (printNat x).length) '0' ++ printNat x

/-- Decimal rendering of an integer. -/
def printInt (n : Int) : List Char :=
  if n < 0 then '-' :: printNat n.natAbs else printNat n.natAbs

/-- JSON rendering of a string (the app's strings are used verbatim; see
`strSafe`). -/
def printStr (s : String) : List Char := '"' :: s.data ++ [ '"' ]

def printItemsSep : List String → List Char
  | [] => []
  | s :: t => ',' :: printStr s ++ printItemsSep t

def printItems : List String → List Char
  | [] => []
  | s :: t => printStr s ++ printItemsSep t

/-- JSON rendering of one value (`json.dumps`; floats are printed with
exactly `e` fractional digits, lists hold strings as in the app). -/
def printValue : Value → List Char
  | .vnull => [ 'n', 'u', 'l', 'l' ]
  | .vbool true => [ 't', 'r', 'u', 'e' ]
  | .vbool false => [ 'f', 'a', 'l', 's', 'e' ]
  | .vint n => printInt n
  | .vfloat m e =>
      (if m < 0 then [ '-' ] else []) ++ printNat (m.natAbs / 10 ^ e)
        ++ '.' :: printNatPad e (m.natAbs % 10 ^ e)
  | .vstr s => printStr s
  | .vlist l => '[' :: printItems l ++ [ ']' ]

def printPair (p : String × Value) : List Char :=
  printStr p.1 ++ ':' :: printValue p.2

def printMembersSep : Document → List Char
  | [] => []
  | p :: t => ',' :: printPair p ++ printMembersSep t

def printMembers : Document → List Char
  | [] => []
  | p :: t => printPair p ++ printMembersSep t

/-- The serialization `json.dumps(data, indent=2)` that source line 51
invokes, up to inter-token whitespace (which JSON parsing ignores).
Note the source never does `import json` (lines 2-4), so as written the
program raises an unhandled `NameError` at line 51 instead of ever
serializing (see `export_document_actual`); this printer captures the
export the spec describes, i.e. the code with the missing import fixed. -/
def printDoc (d : Document) : List Char := '{' :: printMembers d ++ [ '}' ]

/-- Longest digit prefix: its value, how many digits, and the rest. -/
def parseNatPart (cs : List Char) : Option (Nat × Nat × List Char) :=
  let ds := cs.takeWhile Char.isDigit
  if ds.isEmpty then none
  else some (digitsToNat ds, ds.length, cs.dropWhile Char.isDigit)

/-- Parse a JSON number: optional minus sign, digits, optional fractional
part.  An integer literal yields `vint`, one with a fractional part yields
`vfloat` with the written number of decimal places. -/
def parseNumber (cs : List Char) : Option (Value × List Char) :=
  let neg : Bool := cs.head? = some '-'
  let cs1 := if neg then cs.tail else cs
  match parseNatPart cs1 with
  | none => none
  | some (i, _, r1) =>
    if r1.head? = some '.' then
      match parseNatPart r1.tail with
      | none => none
      | some (f, fn, r3) =>
        some (.vfloat (if neg then -((i * 10 ^ fn + f : Nat) : Int)
                       else ((i * 10 ^ fn + f : Nat) : Int)) fn, r3)
    else
      some (.vint (if neg then -((i : Nat) : Int) else ((i : Nat) : Int)), r1)

/-- Parse the remainder of a JSON string after its opening quote. -/
def parseStrBody (cs : List Char) : Option (String × List Char) :=
  let s := cs.takeWhile fun c => c != '"'
  match cs.dropWhile fun c => c != '"' with
  | '"' :: r => some (String.mk s, r)
  | _ => none

/-- Parse the items of a string array after the first item: either the
closing bracket or a comma and a further string, fuelled. -/
def parseItemsAux : Nat → List Char → Option (List String × List Char)
  | 0, _ => none
  | _ + 1, ']' :: r => some ([], r)
  | fuel + 1, ',' :: '"' :: t =>
    match parseStrBody t with
    | none => none
    | some (s, r1) =>
      match parseItemsAux fuel r1 with
      | none => none
      | some (l, r2) => some (s :: l, r2)
  | _ + 1, _ => none

/-- Parse a string array body after its opening bracket. -/
def parseListBody (cs : List Char) : Option (List String × List Char) :=
  match cs with
  | ']' :: r => some ([], r)
  | '"' :: t =>
    match parseStrBody t with
    | none => none
    | some (s, r1) =>
      match parseItemsAux (cs.length + 1) r1 with
      | none => none
      | some (l, r2) => some (s :: l, r2)
  | _ => none

/-- Parse one JSON value: string, array, literal, or number. -/
def parseValue (cs : List Char) : Option (Value × List Char) :=
  if cs.head? = some '"' then
    (parseStrBody cs.tail).map fun p => (Value.vstr p.1, p.2)
  else if cs.head? = some '[' then
    (parseListBody cs.tail).map fun p => (Value.vlist p.1, p.2)
  else if cs.take 4 = [ 't', 'r', 'u', 'e' ] then
    some (.vbool true, cs.drop 4)
  else if cs.take 5 = [ 'f', 'a', 'l', 's', 'e' ] then
    some (.vbool false, cs.drop 5)
  else if cs.take 4 = [ 'n', 'u', 'l', 'l' ] then
    some (.vnull, cs.drop 4)
  else
    parseNumber cs

/-- Parse one `"key": value` member after the key's opening quote. -/
def parsePair (cs : List Char) : Option ((String × Value) × List Char) :=
  match parseStrBody cs with
  | none => none
  | some (k, r1) =>
    match r1 with
    | ':' :: r2 =>
      match parseValue r2 with
      | none => none
      | some (v, r3) => some ((k, v), r3)
    | _ => none

/-- Parse the members after the first one: closing brace, or comma and a
further member, fuelled. -/
def parseMoreMembers : Nat → List Char → Option (Document × List Char)
  | 0, _ => none
  | _ + 1, '}' :: r => some ([], r)
  | fuel + 1, ',' :: '"' :: t =>
    match parsePair t with
    | none => none
    | some (p, r1) =>
      match parseMoreMembers fuel r1 with
      | none => none
      | some (d, r2) => some (p :: d, r2)
  | _ + 1, _ => none

/-- Parse an object body after its opening brace. -/
def parseObjBody (cs : List Char) : Option (Document × List Char) :=
  match cs with
  | '}' :: r => some ([], r)
  | '"' :: t =>
    match parsePair t with
    | none => none
    | some (p, r1) =>
      match parseMoreMembers (cs.length + 1) r1 with
      | none => none
      | some (d, r2) => some (p :: d, r2)
  | _ => none

/-- The parse `json.load(up)` that source line 76 invokes, restricted to
the flat string-keyed documents this app exchanges: a complete JSON
object of strings, numbers, booleans, nulls and string arrays; anything
else (including trailing input) is a parse error.  It deviates from the
full Python `json` grammar outside that fragment (nested objects,
escapes, non-string array items and strict number syntax), none of which
the app's documents contain.  The source never does `import json`, so as
written line 76 raises `NameError` before any parsing on every upload
(see `bulkLoad_actual`); this parser captures the load the spec
describes, i.e. the code with the missing import fixed. -/
def parseDoc (cs : List Char) : Option Document :=
  match cs with
  | '{' :: t =>
    match parseObjBody t with
    | none => none
    | some (d, r) => if r.isEmpty then some d else none
  | _ => none

/-- `st.session_state.data = json.load(up)` guarded by `try/except`
(source lines 74-79), with `json.load` as the intended parse: on success
the mapping is replaced wholesale, on any error the state is untouched
and `st.error` is shown.  Because the source never imports `json`, in
the program as written the success branch is unreachable — every upload
raises `NameError` inside the `try` and takes the failure branch; that
as-executed behavior is `bulkLoad_actual`. -/
def bulkLoad (s : SessionState) (txt : String) : SessionState × LoadOutcome :=
  match parseDoc txt.data with
  | some d => ({ s with data := some d }, .success)
  | none => (s, .failure)

/-- Evaluating the expression `json.load(up)` (line 76) or
`json.dumps(data, indent=2)` (line 51) first resolves the name `json`;
the module is never imported (source lines 2-4), so the lookup raises
`NameError` before anything runs. -/
def json_name_lookup : Except Unit (List Char → Option Document) := .error ()

/-- `download_json_button`'s `json.dumps(data, indent=2)` (source lines
49-51) as the program executes it: the `NameError` from the missing json
module is uncaught, so the export never produces a document. -/
def export_document_actual (_d : Document) : Except Unit (List Char) :=
  match json_name_lookup with
  | .error e => .error e
  | .ok _ => .ok []

/-- The upload handler (source lines 74-79) as the program executes it:
`json.load` raises `NameError` inside the `try` on every upload — valid
JSON included — so the `except` reports an error and the mapping is
never replaced. -/
def bulkLoad_actual (s : SessionState) (txt : String) : SessionState × LoadOutcome :=
  match json_name_lookup with
  | .error _ => (s, .failure)
  | .ok load_fn =>
    match load_fn txt.data with
    | some d => ({ s with data := some d }, .success)
    | none => (s, .failure)

/-- Strings the printer renders verbatim (no character needing a JSON
escape); the app's keys and choice labels all satisfy this. -/
def strSafe (s : String) : Bool :=
  s.data.all fun c => c != '"' && c != '\\'

/-- JSON-safe values: escape-free strings, floats with at least one
fractional digit (a Python float always prints one). -/
def valSafe : Value → Bool
  | .vstr s => strSafe s
  | .vfloat _ e => e != 0
  | .vlist l => l.all strSafe
  | _ => true

def docSafe (d : Document) : Bool :=
  d.all fun p => strSafe p.1 && valSafe p.2

/-- `r` cannot extend a number literal to its left. -/
def numBoundary (cs : List Char) : Bool :=
  match cs with
  | [] => true
  | c :: _ => !c.isDigit && c != '.'

/-- The session-model transitions the UI can trigger (sidebar and
navigation buttons, upload handler). -/
inductive Transition where
  | advance : Transition
  | retreat : Transition
  | reset : Transition
  | bulkload (txt : String) : Transition
  | submit : Transition

/-- The `Finish & Show Summary` button (source line 201) has no `on_click`
handler: it changes no session state. -/
def submit_finish (s : SessionState) : SessionState := s

/-- One step of the session state machine; `none` models a Python fault
(reading a missing `step` key). -/
def apply_transition (s : SessionState) : Transition → Option SessionState
  | .advance => next_step s
  | .retreat => prev_step s
  | .reset => some (reset_form s)
  | .bulkload txt => some (bulkLoad s txt).1
  | .submit => some (submit_finish s)

/-- A concrete answer mapping exercising every value kind. -/
def roundtrip_demo_doc : Document :=
  [ ("project_name", .vstr "Acme"), ("series_cells", .vint 96),
    ("pack_capacity_ah", .vfloat 505 1), ("ota_updates", .vbool true),
    ("interfaces", .vlist [ "CAN FD", "LIN" ]), ("notes", .vnull),
    ("min_temp_c", .vint (-20)) ]

/-- Integer division of `m` by `d` truncating toward zero (Python `int()`
applied to a float). -/
def intTruncDiv (m : Int) (d : Nat) : Int :=
  if 0 ≤ m then ((m.toNat / d : Nat) : Int) else -(((-m).toNat / d : Nat) : Int)

/-- Python `int(s)` on a string, for plain decimal literals (sign and
digits; other accepted spellings such as whitespace or underscores do not
occur in this app's data). -/
def pyStrToInt (s : String) : Option Int :=
  match s.data with
  | '-' :: t =>
    if t ≠ [] ∧ t.all Char.isDigit then some (-(digitsToNat t : Int)) else none
  | l =>
    if l ≠ [] ∧ l.all Char.isDigit then some ((digitsToNat l : Nat) : Int) else none

/-- Python `float(s)` on a string, for plain decimal literals. -/
def pyStrToFloat (s : String) : Option ℚ :=
  match parseNumber s.data with
  | some (v, []) => toNum v
  | _ => none

/-- Python `int(x)`: identity on ints, 0/1 on bools, truncation toward
zero on floats, decimal parse on strings; `None` and lists raise. -/
def pyInt : Value → Option Int
  | .vnull => none
  | .vbool b => some (if b then 1 else 0)
  | .vint n => some n
  | .vfloat m e => some (intTruncDiv m (10 ^ e))
  | .vstr s => pyStrToInt s
  | .vlist _ => none

/-- Python `float(x)`. -/
def pyFloat : Value → Option ℚ
  | .vnull => none
  | .vbool b => some (if b then 1 else 0)
  | .vint n => some ((n : Int) : ℚ)
  | .vfloat m e => some ((m : ℚ) / 10 ^ e)
  | .vstr s => pyStrToFloat s
  | .vlist _ => none

/-- `required(ok, label)` (source lines 44-47): returns `ok` and surfaces
the label as a missing-field caption when `ok` is false. -/
def required (ok : Bool) (label : String) : Bool × List String :=
  (ok, if ok then [] else [label])

/-- The step-1 validation gate (source lines 133-139): all six required
checks are evaluated in order, every failing label is surfaced, and the
button is enabled only when all pass.  `none` models a raising conversion
(`int()`/`float()` of an unconvertible value). -/
def canAdvance (d : Document) : Option (Bool × List String) :=
  let r1 := required (truthy (kv d "project_name" .vnull)) "Project / Program Name"
  let r2 := required (truthy (kv d "company" .vnull)) "Company / Team"
  let r3 := required (truthy (kv d "contact_email" .vnull)) "Primary Contact Email"
  match pyInt (kv d "series_cells" (.vint 0)) with
  | none => none
  | some n =>
    let r4 := required (decide (0 < n)) "Cells in series (S)"
    match pyFloat (kv d "pack_capacity_ah" (.vfloat 0 1)) with
    | none => none
    | some q5 =>
      let r5 := required (decide (0 < q5)) "Target pack capacity (Ah)"
      match pyFloat (kv d "max_cont_current_a" (.vfloat 0 1)) with
      | none => none
      | some q6 =>
        let r6 := required (decide (0 < q6)) "Max continuous current (A)"
        some (r1.1 && r2.1 && r3.1 && r4.1 && r5.1 && r6.1,
          r1.2 ++ r2.2 ++ r3.2 ++ r4.2 ++ r5.2 ++ r6.2)

/-- Claim C2's six predicates as written: non-empty strings for the text
fields and strictly positive numeric values for the numeric fields. -/
def c2_claim_ok (d : Document) : Bool :=
  (match List.lookup "project_name" d with | some (.vstr s) => s != "" | _ => false)
    && (match List.lookup "company" d with | some (.vstr s) => s != "" | _ => false)
    && (match List.lookup "contact_email" d with | some (.vstr s) => s != "" | _ => false)
    && (match (List.lookup "series_cells" d).bind toNum with
        | some q => decide (0 < q) | none => false)
    && (match (List.lookup "pack_capacity_ah" d).bind toNum with
        | some q => decide (0 < q) | none => false)
    && (match (List.lookup "max_cont_current_a" d).bind toNum with
        | some q => decide (0 < q) | none => false)

/-- A mapping on which claim C2's predicates all hold but the gate
refuses: `series_cells = 0.5` is positive, yet `int(0.5) = 0`. -/
def c2_cx_doc : Document :=
  [ ("project_name", .vstr "P"), ("company", .vstr "C"), ("contact_email", .vstr "E"),
    ("series_cells", .vfloat 5 1), ("pack_capacity_ah", .vfloat 500 1),
    ("max_cont_current_a", .vfloat 1000 1) ]

/-- An answer mapping on which all six required checks pass. -/
def c2_ok_doc : Document :=
  [ ("project_name", .vstr "P"), ("company", .vstr "C"), ("contact_email", .vstr "E"),
    ("series_cells", .vint 96), ("pack_capacity_ah", .vfloat 500 1),
    ("max_cont_current_a", .vfloat 1000 1) ]

/-- Modelled from the spec: the external configuration of the Persistence
Adapter (spec §4.5), which is absent from the source file — a
service-account credential blob and a target-store (sheet) identifier,
each possibly missing. -/
structure RemoteConfig where
  credentials : Option String
  sheet_id : Option String
deriving DecidableEq, Repr

/-- Modelled from the spec: `append_record(answers)` (spec §4.5), absent
from the source file.  `net` stands for the remote append attempt (its
success or failure message); the result carries `(ok, error?)` and the
number of network calls attempted.  Missing credentials or a missing
store identifier short-circuit to `(false, "missing configuration")`
without any network call; a network failure is caught and reported. -/
def append_record (net : Document → Except String Unit) (cfg : RemoteConfig)
    (answers : Document) : (Bool × Option String) × Nat :=
  match cfg.credentials, cfg.sheet_id with
  | some _, some _ =>
    match net answers with
    | .ok _ => ((true, none), 1)
    | .error e => ((false, some e), 1)
  | _, _ => ((false, some "missing configuration"), 0)

theorem roundHalfEven_intCast (n : ℤ) : roundHalfEven ((n : ℤ) : ℚ) = n := by
  unfold roundHalfEven
  rw [Int.floor_intCast]
  norm_num

theorem round2_eq (q : ℚ) (n : ℤ) (h : q * 100 = (n : ℚ)) : round2 q = n / 100 := by
  unfold round2
  rw [h, roundHalfEven_intCast]

theorem chem_lookup_num (c : String) (v : Value)
    (h : List.lookup c chem_defaults = some v) :
    toNum v = some (chem_base_q c) ∧ truthy v = true := by
  unfold chem_base_q
  rw [h]
  simp only [chem_defaults, List.lookup] at h
  repeat' split at h
  all_goals try (injection h with h; subst h; simp [toNum, truthy])
  all_goals simp_all

theorem series_or_zero_eval (s : Option Int) :
    toNum (py_or (optIntVal s) (.vint 0)) = some ((s.getD 0 : Int) : ℚ) := by
  cases s with
  | none => simp [optIntVal, py_or, truthy, toNum]
  | some n =>
    by_cases hn : n = 0
    · subst hn; simp [optIntVal, py_or, truthy, toNum]
    · simp [optIntVal, py_or, truthy, toNum, hn]

theorem cell_nominal_eval (c : String) (m : Int) (e : Nat) :
    toNum (py_or (.vfloat m e) (chem_map_get chem_defaults (.vstr c) (.vfloat 36 1)))
      = some (if m = 0 then chem_base_q c else (m : ℚ) / 10 ^ e) := by
  by_cases hm : m = 0
  · subst hm
    simp only [py_or, truthy, chem_map_get, bne_self_eq_false, if_neg, ite_false,
      Bool.false_eq_true]
    cases hl : List.lookup c chem_defaults with
    | none =>
      have hb : chem_base_q c = 36 / 10 := by unfold chem_base_q; rw [hl]
      norm_num [toNum, hb]
    | some v =>
      simpa using (chem_lookup_num c v hl).1
  · simp [py_or, truthy, toNum, hm]

/-- **C1 (amended).**  For every series cell count `s` (an `int` or null),
chemistry string `c` and float override `m / 10 ^ e`,
`calc_nominal_pack_voltage` returns `round(s' * e', 2)` where `s'` is `s`
with null treated as 0 and `e'` is the override whenever it is non-zero
(Python `or`-truthiness, so a negative override is also used), else the
chemistry table value for `c`, defaulting to 3.6 for unrecognized
chemistries. -/
theorem calc_nominal_pack_voltage_formula (s : Option Int) (c : String) (m : Int) (e : Nat) :
    calc_nominal_pack_voltage chem_defaults (optIntVal s) (.vstr c) (.vfloat m e)
      = some (round2 ((s.getD 0 : Int)
          * (if m = 0 then chem_base_q c else (m : ℚ) / 10 ^ e))) := by
  simp only [calc_nominal_pack_voltage, calc_nominal_pack_voltage_body,
    series_or_zero_eval, cell_nominal_eval]

/-- **C1 (counterexample).**  The claim's formula uses the chemistry base
whenever the override is not strictly positive, but the code's
`cell_nominal_override or base` uses any non-zero override: at
`series_cells = 1`, `chemistry = "NMC"`, `override = -1.0` the code
returns `-1.0` while the claim's formula gives `3.6`. -/
theorem calc_override_negative_counterexample :
    calc_nominal_pack_voltage chem_defaults (.vint 1) (.vstr "NMC") (.vfloat (-10) 1)
        = some (-1)
      ∧ calc_c1_claim (some 1) "NMC" (-1) = 18 / 5
      ∧ some ((-1 : ℚ)) ≠ some ((18 : ℚ) / 5) := by
  refine ⟨?_, ?_, by norm_num⟩
  · have hr : round2 (-1 : ℚ) = -1 := by
      rw [round2_eq (-1 : ℚ) (-100) (by norm_num)]
      norm_num
    simp [calc_nominal_pack_voltage, calc_nominal_pack_voltage_body, chem_map_get,
      chem_defaults, List.lookup, py_or, truthy, toNum, hr]
  · have hb : chem_base_q "NMC" = 36 / 10 := by
      norm_num [chem_base_q, chem_defaults, List.lookup, toNum]
    unfold calc_c1_claim
    rw [if_neg (by norm_num), hb,
      round2_eq _ 360 (by norm_num)]
    norm_num

/-- Helper: the `Option`-valued model returns null exactly when the body
of its `try` block raises. -/
theorem calc_error_yields_none (m : List (String × Value)) (s c o : Value) :
    calc_nominal_pack_voltage m s c o = none
      ↔ calc_nominal_pack_voltage_body m s c o = .error () := by
  unfold calc_nominal_pack_voltage
  cases h : calc_nominal_pack_voltage_body m s c o with
  | ok q => simp
  | error e => cases e; simp

/-- **C8 (counterexample).**  `set_kv` performs no clamping: storing 2000
for `series_cells` (widget domain `[0, 1000]`, source line 104) records
2000 itself, not the clamped 1000. -/
theorem set_kv_counterexample :
    kv (set_kv [] "series_cells" (.vint 2000)) "series_cells" .vnull = .vint 2000
      ∧ clamp_to 0 1000 2000 = 1000
      ∧ Value.vint 2000 ≠ .vint 1000 := by
  refine ⟨rfl, by norm_num [clamp_to], by decide⟩

/-- **C8 (amended).**  The Field Registry setter `set_kv` stores the given
value verbatim under its key — numeric domain clamping happens in the
widget layer before `set_kv` is called, never in the setter. -/
theorem set_kv_stores_value (d : Document) (k : String) (v : Value) :
    List.lookup k (set_kv d k v) = some v := by
  induction d with
  | nil => simp [set_kv, List.lookup]
  | cons p t ih =>
    obtain ⟨k', v'⟩ := p
    by_cases h : k' = k
    · subst h; simp [set_kv, List.lookup]
    · have hne : (k == k') = false := by
        simp [Ne.symm h]
      simp [set_kv, h, List.lookup, hne, ih]

/-- **C3.**  `reset_form` always yields the freshly initialized session:
step 1, empty answer mapping, default chemistry table, no submission/save
or widget keys left behind (the source keeps no submission/save flags; the
wholesale key deletion clears every non-managed key). -/
theorem reset_form_fresh (s : SessionState) :
    reset_form s = init_state empty_session
      ∧ (reset_form s).step = some 1
      ∧ (reset_form s).data = some []
      ∧ (reset_form s).chem_cell_nominal_map = some chem_defaults
      ∧ (reset_form s).extra = [] := by
  refine ⟨rfl, rfl, rfl, rfl, rfl⟩

/-- **C10.**  `init_state` seeds only absent keys: any present `step`,
answer mapping or chemistry table is left unchanged (and non-managed keys
are never touched), so the `init_state()` call at the top of every render
pass (source line 60) preserves the session across reruns. -/
theorem init_state_preserves_existing (s : SessionState) :
    (∀ v, s.step = some v → (init_state s).step = some v)
      ∧ (∀ d, s.data = some d → (init_state s).data = some d)
      ∧ (∀ m, s.chem_cell_nominal_map = some m →
          (init_state s).chem_cell_nominal_map = some m)
      ∧ (init_state s).extra = s.extra
      ∧ (s.step.isSome = true → s.data.isSome = true →
          s.chem_cell_nominal_map.isSome = true → init_state s = s) := by
  obtain ⟨st, da, ch, ex⟩ := s
  refine ⟨?_, ?_, ?_, rfl, ?_⟩
  · intro v h; cases st <;> simp_all [init_state, seedOpt]
  · intro d h; cases da <;> simp_all [init_state, seedOpt]
  · intro m h; cases ch <;> simp_all [init_state, seedOpt]
  · intro h1 h2 h3
    cases st <;> cases da <;> cases ch <;> simp_all [init_state, seedOpt]

/-- Witness for C10 at a concrete fully-seeded session. -/
theorem init_state_preserves_existing_witness :
    init_state
        { step := some 2, data := some [("project_name", .vstr "Acme")],
          chem_cell_nominal_map := some chem_defaults, extra := [] }
      = { step := some 2, data := some [("project_name", .vstr "Acme")],
          chem_cell_nominal_map := some chem_defaults, extra := [] } :=
  (init_state_preserves_existing _).2.2.2.2 rfl rfl rfl

theorem charToDigit_digitToChar (d : Nat) (h : d < 10) :
    charToDigit (digitToChar d) = d := by
  interval_cases d <;> rfl

theorem digitToChar_isDigit (d : Nat) (h : d < 10) :
    (digitToChar d).isDigit = true := by
  interval_cases d <;> rfl

theorem span_exact {p : Char → Bool} (l r : List Char)
    (hl : ∀ c ∈ l, p c = true) (hr : ∀ c, r.head? = some c → p c = false) :
    (l ++ r).takeWhile p = l ∧ (l ++ r).dropWhile p = r := by
  induction l with
  | nil =>
    cases r with
    | nil => simp
    | cons c t =>
      have hc := hr c rfl
      simp [List.takeWhile_cons, List.dropWhile_cons, hc]
  | cons c t ih =>
    have hc : p c = true := hl c (by simp)
    have iht := ih fun x hx => hl x (by simp [hx])
    simp [List.takeWhile_cons, List.dropWhile_cons, hc, iht.1, iht.2]

theorem foldr_charToDigit (l : List Nat) (h : ∀ d ∈ l, d < 10) :
    l.foldr (fun d a => 10 * a + charToDigit (digitToChar d)) 0
      = Nat.ofDigits 10 l := by
  induction l with
  | nil => simp [Nat.ofDigits_nil]
  | cons d t ih =>
    have hd : d < 10 := h d (by simp)
    have ht := ih fun x hx => h x (by simp [hx])
    simp only [List.foldr_cons, Nat.ofDigits_cons, ht, charToDigit_digitToChar d hd]
    ring

theorem digitsToNat_printNat (n : Nat) : digitsToNat (printNat n) = n := by
  unfold printNat digitsToNat
  by_cases h : n = 0
  · subst h; rfl
  · simp only [h, ite_false]
    rw [List.foldl_reverse, List.foldr_map]
    have := foldr_charToDigit (Nat.digits 10 n)
      fun d hd => Nat.digits_lt_base (by norm_num) hd
    simpa [this] using Nat.ofDigits_digits 10 n

theorem printNat_all_digits (n : Nat) : ∀ c ∈ printNat n, c.isDigit = true := by
  unfold printNat
  by_cases h : n = 0
  · subst h
    intro c hc
    simp at hc
    subst hc
    rfl
  · simp only [h, ite_false]
    intro c hc
    simp only [List.mem_reverse, List.mem_map] at hc
    obtain ⟨d, hd, rfl⟩ := hc
    exact digitToChar_isDigit d (Nat.digits_lt_base (by norm_num) hd)

theorem printNat_ne_nil (n : Nat) : printNat n ≠ [] := by
  unfold printNat
  by_cases h : n = 0
  · simp [h]
  · simp [h, Nat.digits_ne_nil_iff_ne_zero.mpr h]

theorem printNat_length_le (x e : Nat) (he : e ≠ 0) (hx : x < 10 ^ e) :
    (printNat x).length ≤ e := by
  unfold printNat
  by_cases h : x = 0
  · simpa [h] using Nat.one_le_iff_ne_zero.mpr he
  · simp only [h, ite_false, List.length_reverse, List.length_map]
    rw [Nat.digits_len 10 x (by norm_num) h]
    have := Nat.log_lt_of_lt_pow h hx
    omega

theorem printNatPad_all_digits (e x : Nat) :
    ∀ c ∈ printNatPad e x, c.isDigit = true := by
  intro c hc
  unfold printNatPad at hc
  rcases List.mem_append.mp hc with h | h
  · rw [List.eq_of_mem_replicate h]
    rfl
  · exact printNat_all_digits x c h

theorem printNatPad_length (e x : Nat) (he : e ≠ 0) (hx : x < 10 ^ e) :
    (printNatPad e x).length = e := by
  unfold printNatPad
  have := printNat_length_le x e he hx
  simp only [List.length_append, List.length_replicate]
  omega

theorem foldl_digit_zeros (k : Nat) :
    List.foldl (fun a c => 10 * a + charToDigit c) 0 (List.replicate k '0') = 0 := by
  induction k with
  | zero => rfl
  | succ n ih =>
    simpa [List.replicate_succ, charToDigit] using ih

theorem digitsToNat_printNatPad (e x : Nat) :
    digitsToNat (printNatPad e x) = x := by
  unfold printNatPad digitsToNat
  rw [List.foldl_append, foldl_digit_zeros]
  exact digitsToNat_printNat x

theorem parseNatPart_exact (ds r : List Char) (hds : ∀ c ∈ ds, c.isDigit = true)
    (hne : ds ≠ []) (hr : ∀ c, r.head? = some c → c.isDigit = false) :
    parseNatPart (ds ++ r) = some (digitsToNat ds, ds.length, r) := by
  unfold parseNatPart
  obtain ⟨h1, h2⟩ := span_exact ds r hds hr
  rw [h1, h2]
  simp [hne]

theorem printNat_head_props (n : Nat) :
    ∃ c t, printNat n = c :: t ∧ c.isDigit = true := by
  cases hp : printNat n with
  | nil => exact absurd hp (printNat_ne_nil n)
  | cons c t =>
    refine ⟨c, t, rfl, printNat_all_digits n c ?_⟩
    rw [hp]
    simp

theorem isDigit_char_ne (c : Char) (h : c.isDigit = true) :
    c ≠ '-' ∧ c ≠ '.' ∧ c ≠ '"' ∧ c ≠ '[' ∧ c ≠ 't' ∧ c ≠ 'f' ∧ c ≠ 'n' := by
  refine ⟨?_, ?_, ?_, ?_, ?_, ?_, ?_⟩
  all_goals rintro rfl
  all_goals exact absurd h (by decide)

theorem numBoundary_not_digit (r : List Char) (hr : numBoundary r = true) :
    (∀ c, r.head? = some c → c.isDigit = false) ∧ ¬r.head? = some '.' := by
  cases r with
  | nil => simp
  | cons a t =>
    unfold numBoundary at hr
    simp only [Bool.and_eq_true, Bool.not_eq_true', bne_iff_ne, ne_eq] at hr
    constructor
    · intro c hc
      simp only [List.head?_cons, Option.some.injEq] at hc
      subst hc
      exact hr.1
    · intro hc
      simp only [List.head?_cons, Option.some.injEq] at hc
      exact hr.2 hc

theorem parseNumber_printInt (n : Int) (r : List Char) (hr : numBoundary r = true) :
    parseNumber (printInt n ++ r) = some (.vint n, r) := by
  obtain ⟨hrd, hrdot⟩ := numBoundary_not_digit r hr
  have htail : parseNatPart (printNat n.natAbs ++ r)
      = some (n.natAbs, (printNat n.natAbs).length, r) := by
    rw [parseNatPart_exact _ _ (printNat_all_digits _) (printNat_ne_nil _) hrd,
      digitsToNat_printNat]
  by_cases hn : n < 0
  · simp only [parseNumber, printInt, if_pos hn, List.cons_append, List.head?_cons]
    simp [htail, hrdot, abs_of_neg hn]
  · obtain ⟨c, t, hp, hcd⟩ := printNat_head_props n.natAbs
    have hne := (isDigit_char_ne c hcd).1
    have hhead : (printNat n.natAbs ++ r).head? = some c := by
      rw [hp]
      rfl
    simp only [parseNumber, printInt, if_neg hn]
    simp [hhead, hne, htail, hrdot, abs_of_nonneg (not_lt.mp hn)]

theorem parseNumber_printFloat (m : Int) (e : Nat) (he : e ≠ 0) (r : List Char)
    (hr : numBoundary r = true) :
    parseNumber (printValue (.vfloat m e) ++ r) = some (.vfloat m e, r) := by
  obtain ⟨hrd, hrdot⟩ := numBoundary_not_digit r hr
  have hpow : 0 < 10 ^ e := by positivity
  have hb : m.natAbs % 10 ^ e < 10 ^ e := Nat.mod_lt _ hpow
  have hpadne : printNatPad e (m.natAbs % 10 ^ e) ≠ [] := by
    apply List.ne_nil_of_length_pos
    rw [printNatPad_length e _ he hb]
    omega
  have hfrac : parseNatPart (printNatPad e (m.natAbs % 10 ^ e) ++ r)
      = some (m.natAbs % 10 ^ e, e, r) := by
    rw [parseNatPart_exact _ _ (printNatPad_all_digits _ _) hpadne hrd,
      digitsToNat_printNatPad, printNatPad_length e _ he hb]
  have hdotr : ∀ c, ('.' :: (printNatPad e (m.natAbs % 10 ^ e) ++ r)).head? = some c
      → c.isDigit = false := by
    intro c hc
    simp only [List.head?_cons, Option.some.injEq] at hc
    subst hc
    rfl
  have hint : parseNatPart (printNat (m.natAbs / 10 ^ e)
        ++ ('.' :: (printNatPad e (m.natAbs % 10 ^ e) ++ r)))
      = some (m.natAbs / 10 ^ e, (printNat (m.natAbs / 10 ^ e)).length,
          '.' :: (printNatPad e (m.natAbs % 10 ^ e) ++ r)) := by
    rw [parseNatPart_exact _ _ (printNat_all_digits _) (printNat_ne_nil _) hdotr,
      digitsToNat_printNat]
  have hrecomb : m.natAbs / 10 ^ e * 10 ^ e + m.natAbs % 10 ^ e = m.natAbs := by
    rw [Nat.mul_comm]
    exact Nat.div_add_mod m.natAbs (10 ^ e)
  by_cases hm : m < 0
  · simp only [printValue, if_pos hm, List.cons_append, List.nil_append,
      List.append_assoc, List.cons_append]
    simp only [parseNumber, List.head?_cons]
    simp [hint, hfrac, hrecomb, abs_of_neg hm]
  · obtain ⟨c, t, hp, hcd⟩ := printNat_head_props (m.natAbs / 10 ^ e)
    have hne := (isDigit_char_ne c hcd).1
    have hhead : (printNat (m.natAbs / 10 ^ e)
        ++ ('.' :: (printNatPad e (m.natAbs % 10 ^ e) ++ r))).head? = some c := by
      rw [hp]
      rfl
    simp only [printValue, if_neg hm, List.nil_append, List.append_assoc,
      List.cons_append]
    simp only [parseNumber, hhead]
    simp [hne, hint, hfrac, hrecomb, abs_of_nonneg (not_lt.mp hm)]

theorem parseStrBody_print (s : String) (r : List Char) (hs : strSafe s = true) :
    parseStrBody (s.data ++ '"' :: r) = some (s, r) := by
  unfold parseStrBody
  have hall : ∀ c ∈ s.data, (c != '"') = true := by
    intro c hc
    have h := List.all_eq_true.mp hs c hc
    simp only [Bool.and_eq_true] at h
    exact h.1
  have hhd : ∀ c, ('"' :: r).head? = some c → (c != '"') = false := by
    intro c hc
    simp only [List.head?_cons, Option.some.injEq] at hc
    subst hc
    rfl
  obtain ⟨h1, h2⟩ := span_exact s.data ('"' :: r) hall hhd
  rw [h1, h2]
  rfl

theorem printItemsSep_length (l : List String) :
    l.length ≤ (printItemsSep l).length := by
  induction l with
  | nil => simp [printItemsSep]
  | cons s t ih =>
    simp only [printItemsSep, List.length_cons, List.cons_append, List.length_append]
    omega

theorem parseItemsAux_print (l : List String) (r : List Char) (fuel : Nat)
    (hf : l.length < fuel) (hs : ∀ s ∈ l, strSafe s = true) :
    parseItemsAux fuel (printItemsSep l ++ ']' :: r) = some (l, r) := by
  induction l generalizing fuel r with
  | nil =>
    cases fuel with
    | zero => omega
    | succ f => simp [printItemsSep, parseItemsAux]
  | cons s t ih =>
    cases fuel with
    | zero => omega
    | succ f =>
      have hmem : strSafe s = true := hs s (by simp)
      have ht : ∀ x ∈ t, strSafe x = true := fun x hx => hs x (by simp [hx])
      have harr : printItemsSep (s :: t) ++ ']' :: r
          = ',' :: '"' :: (s.data ++ '"' :: (printItemsSep t ++ ']' :: r)) := by
        simp [printItemsSep, printStr]
      simp only [List.length_cons] at hf
      rw [harr]
      simp only [parseItemsAux]
      rw [parseStrBody_print s _ hmem]
      have hrec := ih r f (by omega) ht
      simp [hrec]

theorem parseListBody_print (l : List String) (r : List Char)
    (hs : ∀ s ∈ l, strSafe s = true) :
    parseListBody (printItems l ++ ']' :: r) = some (l, r) := by
  cases l with
  | nil => simp [printItems, parseListBody]
  | cons s t =>
    have hmem : strSafe s = true := hs s (by simp)
    have ht : ∀ x ∈ t, strSafe x = true := fun x hx => hs x (by simp [hx])
    have harr : printItems (s :: t) ++ ']' :: r
        = '"' :: (s.data ++ '"' :: (printItemsSep t ++ ']' :: r)) := by
      simp [printItems, printStr]
    rw [harr]
    simp only [parseListBody]
    rw [parseStrBody_print s _ hmem]
    have hfuel : t.length
        < ('"' :: (s.data ++ '"' :: (printItemsSep t ++ ']' :: r))).length + 1 := by
      have := printItemsSep_length t
      simp only [List.length_cons, List.length_append]
      omega
    have hrec := parseItemsAux_print t r _ hfuel ht
    simp at hrec
    simp [hrec]

theorem parseValue_eq_parseNumber (cs : List Char) (c : Char)
    (h : cs.head? = some c) (hc : c.isDigit = true ∨ c = '-') :
    parseValue cs = parseNumber cs := by
  cases cs with
  | nil => simp at h
  | cons a rest =>
    simp only [List.head?_cons, Option.some.injEq] at h
    subst h
    have hprops : a ≠ '"' ∧ a ≠ '[' ∧ a ≠ 't' ∧ a ≠ 'f' ∧ a ≠ 'n' := by
      rcases hc with h | h
      · have h2 := isDigit_char_ne a h
        exact ⟨h2.2.2.1, h2.2.2.2.1, h2.2.2.2.2.1, h2.2.2.2.2.2.1, h2.2.2.2.2.2.2⟩
      · subst h
        refine ⟨by decide, by decide, by decide, by decide, by decide⟩
    simp [parseValue, List.take_succ_cons, hprops.1, hprops.2.1, hprops.2.2.1,
      hprops.2.2.2.1, hprops.2.2.2.2]

theorem printInt_head (n : Int) :
    ∃ c rest, printInt n = c :: rest ∧ (c.isDigit = true ∨ c = '-') := by
  unfold printInt
  by_cases hn : n < 0
  · exact ⟨'-', printNat n.natAbs, by simp [hn], Or.inr rfl⟩
  · obtain ⟨c, t, hp, hc⟩ := printNat_head_props n.natAbs
    exact ⟨c, t, by simp [hn, hp], Or.inl hc⟩

theorem printFloat_head (m : Int) (e : Nat) :
    ∃ c rest, printValue (.vfloat m e) = c :: rest ∧ (c.isDigit = true ∨ c = '-') := by
  by_cases hm : m < 0
  · refine ⟨'-', printNat (m.natAbs / 10 ^ e)
      ++ '.' :: printNatPad e (m.natAbs % 10 ^ e), ?_, Or.inr rfl⟩
    simp [printValue, hm]
  · obtain ⟨c, t, hp, hc⟩ := printNat_head_props (m.natAbs / 10 ^ e)
    refine ⟨c, t ++ '.' :: printNatPad e (m.natAbs % 10 ^ e), ?_, Or.inl hc⟩
    simp [printValue, hm, hp]

theorem parseValue_print (v : Value) (r : List Char) (hv : valSafe v = true)
    (hr : numBoundary r = true) :
    parseValue (printValue v ++ r) = some (v, r) := by
  cases v with
  | vnull => simp [printValue, parseValue]
  | vbool b => cases b <;> simp [printValue, parseValue]
  | vstr s =>
    have hs : strSafe s = true := hv
    have harr : printValue (.vstr s) ++ r = '"' :: (s.data ++ '"' :: r) := by
      simp [printValue, printStr]
    rw [harr]
    simp only [parseValue, List.head?_cons, List.tail_cons, if_pos rfl]
    rw [parseStrBody_print s r hs]
    rfl
  | vlist l =>
    have hs : ∀ s ∈ l, strSafe s = true := by
      intro s hsl
      exact List.all_eq_true.mp hv s hsl
    have harr : printValue (.vlist l) ++ r = '[' :: (printItems l ++ ']' :: r) := by
      simp [printValue]
    rw [harr]
    have hne : ¬(('[' :: (printItems l ++ ']' :: r)).head? = some '"') := by
      simp
    simp only [parseValue, hne, if_false, List.head?_cons, List.tail_cons, if_pos rfl,
      ite_false, if_neg hne]
    rw [parseListBody_print l r hs]
    rfl
  | vint n =>
    obtain ⟨c, rest, hp, hc⟩ := printInt_head n
    have hh : (printValue (.vint n) ++ r).head? = some c := by
      simp [printValue, hp]
    rw [parseValue_eq_parseNumber _ c hh hc]
    exact parseNumber_printInt n r hr
  | vfloat m e =>
    have he : e ≠ 0 := by
      simpa [valSafe] using hv
    obtain ⟨c, rest, hp, hc⟩ := printFloat_head m e
    have hh : (printValue (.vfloat m e) ++ r).head? = some c := by
      rw [hp]
      rfl
    rw [parseValue_eq_parseNumber _ c hh hc]
    exact parseNumber_printFloat m e he r hr

theorem numBoundary_membersSep (d : Document) (r : List Char) :
    numBoundary (printMembersSep d ++ '}' :: r) = true := by
  cases d with
  | nil => rfl
  | cons p t => rfl

theorem parsePair_print (k : String) (v : Value) (r : List Char)
    (hk : strSafe k = true) (hv : valSafe v = true) (hr : numBoundary r = true) :
    parsePair (k.data ++ '"' :: ':' :: (printValue v ++ r)) = some ((k, v), r) := by
  unfold parsePair
  rw [parseStrBody_print k _ hk]
  simp only []
  rw [parseValue_print v r hv hr]

theorem printMembersSep_length (d : Document) :
    d.length ≤ (printMembersSep d).length := by
  induction d with
  | nil => simp [printMembersSep]
  | cons p t ih =>
    simp only [printMembersSep, List.length_cons, List.cons_append, List.length_append]
    omega

theorem pair_safe_of_docSafe (d : Document) (p : String × Value) (hd : docSafe d = true)
    (hp : p ∈ d) : strSafe p.1 = true ∧ valSafe p.2 = true := by
  have h := List.all_eq_true.mp hd p hp
  simp only [Bool.and_eq_true] at h
  exact h

theorem printPair_decomp (k : String) (v : Value) (rest : List Char) :
    printPair (k, v) ++ rest = '"' :: (k.data ++ '"' :: ':' :: (printValue v ++ rest)) := by
  simp [printPair, printStr]

theorem parseMoreMembers_print (d : Document) (r : List Char) (fuel : Nat)
    (hf : d.length < fuel) (hd : docSafe d = true) :
    parseMoreMembers fuel (printMembersSep d ++ '}' :: r) = some (d, r) := by
  induction d generalizing fuel r with
  | nil =>
    cases fuel with
    | zero => omega
    | succ f => simp [printMembersSep, parseMoreMembers]
  | cons p t ih =>
    cases fuel with
    | zero => omega
    | succ f =>
      obtain ⟨k, v⟩ := p
      obtain ⟨hk, hv⟩ := pair_safe_of_docSafe ((k, v) :: t) (k, v) hd (by simp)
      have htd : docSafe t = true := by
        unfold docSafe at hd ⊢
        simp only [List.all_cons, Bool.and_eq_true] at hd
        exact hd.2
      simp only [List.length_cons] at hf
      have harr : printMembersSep ((k, v) :: t) ++ '}' :: r
          = ',' :: '"' :: (k.data ++ '"' :: ':'
              :: (printValue v ++ (printMembersSep t ++ '}' :: r))) := by
        simp [printMembersSep, printPair, printStr]
      rw [harr]
      simp only [parseMoreMembers]
      rw [parsePair_print k v _ hk hv (numBoundary_membersSep t r)]
      have hrec := ih r f (by omega) htd
      simp [hrec]

theorem parseObjBody_print (d : Document) (r : List Char) (hd : docSafe d = true) :
    parseObjBody (printMembers d ++ '}' :: r) = some (d, r) := by
  cases d with
  | nil => simp [printMembers, parseObjBody]
  | cons p t =>
    obtain ⟨k, v⟩ := p
    obtain ⟨hk, hv⟩ := pair_safe_of_docSafe ((k, v) :: t) (k, v) hd (by simp)
    have htd : docSafe t = true := by
      unfold docSafe at hd ⊢
      simp only [List.all_cons, Bool.and_eq_true] at hd
      exact hd.2
    have harr : printMembers ((k, v) :: t) ++ '}' :: r
        = '"' :: (k.data ++ '"' :: ':'
            :: (printValue v ++ (printMembersSep t ++ '}' :: r))) := by
      simp [printMembers, printPair, printStr]
    rw [harr]
    simp only [parseObjBody]
    rw [parsePair_print k v _ hk hv (numBoundary_membersSep t r)]
    have hfuel : t.length
        < ('"' :: (k.data ++ '"' :: ':'
            :: (printValue v ++ (printMembersSep t ++ '}' :: r)))).length + 1 := by
      have := printMembersSep_length t
      simp only [List.length_cons, List.length_append]
      omega
    have hrec := parseMoreMembers_print t r _ hfuel htd
    simp at hrec
    simp [hrec]

theorem parseDoc_printDoc (d : Document) (hd : docSafe d = true) :
    parseDoc (printDoc d) = some d := by
  have h := parseObjBody_print d [] hd
  simp only [List.append_nil] at h
  simp [printDoc, parseDoc, h]

/-- **C5.**  From any session whose step is 1 or 2, every transition
keeps the step in {1, 2}; `Advance` at step 2 and `Retreat` at step 1 are
exact no-ops (never faults), and `Retreat` unconditionally lands on
step 1. -/
theorem step_invariant_transitions (s : SessionState) (k : Int)
    (hs : s.step = some k) (hk : k = 1 ∨ k = 2) :
    (∀ t, ∃ s', apply_transition s t = some s'
        ∧ (s'.step = some 1 ∨ s'.step = some 2))
      ∧ (k = 2 → apply_transition s Transition.advance = some s)
      ∧ (k = 1 → apply_transition s Transition.retreat = some s)
      ∧ apply_transition s Transition.retreat = some { s with step := some 1 } := by
  obtain ⟨st, da, ch, ex⟩ := s
  simp only [SessionState.mk.injEq] at hs ⊢
  subst hs
  refine ⟨?_, ?_, ?_, ?_⟩
  · intro t
    cases t with
    | advance =>
      refine ⟨_, rfl, ?_⟩
      rcases hk with h | h <;> subst h <;> simp [next_step]
    | retreat =>
      refine ⟨_, rfl, ?_⟩
      rcases hk with h | h <;> subst h <;> simp [prev_step]
    | reset => exact ⟨_, rfl, Or.inl rfl⟩
    | bulkload txt =>
      refine ⟨_, rfl, ?_⟩
      unfold bulkLoad
      cases parseDoc txt.data <;> simpa using hk
    | submit =>
      refine ⟨_, rfl, ?_⟩
      simpa [submit_finish] using hk
  · intro h
    subst h
    simp [apply_transition, next_step]
  · intro h
    subst h
    simp [apply_transition, prev_step]
  · rcases hk with h | h <;> subst h <;> simp [apply_transition, prev_step]

/-- Witness for C5: the invariant and no-op clauses at a concrete step-2
session. -/
theorem step_invariant_witness :
    (∀ t, ∃ s', apply_transition
          { step := some 2, data := some [], chem_cell_nominal_map := some chem_defaults,
            extra := [] } t = some s'
        ∧ (s'.step = some 1 ∨ s'.step = some 2))
      ∧ ((2 : Int) = 2 → apply_transition
          { step := some 2, data := some [], chem_cell_nominal_map := some chem_defaults,
            extra := [] } Transition.advance = some
          { step := some 2, data := some [], chem_cell_nominal_map := some chem_defaults,
            extra := [] })
      ∧ ((2 : Int) = 1 → apply_transition
          { step := some 2, data := some [], chem_cell_nominal_map := some chem_defaults,
            extra := [] } Transition.retreat = some
          { step := some 2, data := some [], chem_cell_nominal_map := some chem_defaults,
            extra := [] })
      ∧ apply_transition
          { step := some 2, data := some [], chem_cell_nominal_map := some chem_defaults,
            extra := [] } Transition.retreat = some
          { step := some 1, data := some [], chem_cell_nominal_map := some chem_defaults,
            extra := [] } :=
  step_invariant_transitions _ 2 rfl (Or.inr rfl)

/-- **C4.**  Bulk-loading any text the JSON parser rejects is a total
operation returning the explicit `failure` outcome with the entire prior
session (mapping and step) unchanged. -/
theorem bulkLoad_parse_failure_preserves_state (s : SessionState) (txt : String)
    (h : parseDoc txt.data = none) :
    bulkLoad s txt = (s, LoadOutcome.failure) := by
  unfold bulkLoad
  rw [h]

/-- Witness for C4 at a concrete malformed upload. -/
theorem bulkLoad_parse_failure_witness :
    bulkLoad empty_session "not json" = (empty_session, LoadOutcome.failure) :=
  bulkLoad_parse_failure_preserves_state empty_session "not json" (by decide)

/-- The round trip the spec describes holds of the intended
serialization: for every JSON-safe answer mapping, serializing it and
bulk-loading the produced document restores exactly the original
mapping.  This is evidence that only the missing `import json` — not the
handler logic — breaks the round trip in the program as written. -/
theorem json_roundtrip (d : Document) (h : docSafe d = true) :
    parseDoc (printDoc d) = some d
      ∧ ∀ s, bulkLoad s (String.mk (printDoc d))
          = ({ s with data := some d }, LoadOutcome.success) := by
  have hp : parseDoc (printDoc d) = some d := parseDoc_printDoc d h
  refine ⟨hp, fun s => ?_⟩
  unfold bulkLoad
  rw [show (String.mk (printDoc d)).data = printDoc d from rfl, hp]

/-- `json_roundtrip` instantiated at `roundtrip_demo_doc`. -/
theorem json_roundtrip_witness :
    docSafe roundtrip_demo_doc = true
      ∧ parseDoc (printDoc roundtrip_demo_doc) = some roundtrip_demo_doc
      ∧ ∀ s, bulkLoad s (String.mk (printDoc roundtrip_demo_doc))
          = ({ s with data := some roundtrip_demo_doc }, LoadOutcome.success) :=
  ⟨by decide, json_roundtrip roundtrip_demo_doc (by decide)⟩

/-- **C2 (counterexample).**  The claim's iff fails on the code: with
`series_cells = 0.5` (loadable through BulkLoad) every claimed predicate
holds — 0.5 > 0 — yet the gate computes `int(0.5) = 0`, returns
`ok = false` and reports the series-cells label missing. -/
theorem canAdvance_truncation_counterexample :
    c2_claim_ok c2_cx_doc = true
      ∧ canAdvance c2_cx_doc = some (false, [ "Cells in series (S)" ]) := by
  constructor
  · simp [c2_claim_ok, c2_cx_doc, List.lookup, toNum]
  · simp [canAdvance, c2_cx_doc, kv, List.lookup, pyInt, pyFloat, intTruncDiv,
      required, truthy]

/-- **C2 (amended).**  Whenever the gate's conversions succeed it returns
`ok = true` exactly when all six checks as implemented pass — truthiness
for the three text fields, `int(series_cells) > 0` (which truncates a
float toward zero), `float(pack_capacity_ah) > 0` and
`float(max_cont_current_a) > 0` — and `missing` holds exactly the labels
of all failing checks, not just the first. -/
theorem canAdvance_characterization (d : Document) (ok : Bool) (missing : List String)
    (h : canAdvance d = some (ok, missing)) :
    ((ok = true) ↔
      (truthy (kv d "project_name" .vnull) = true
        ∧ truthy (kv d "company" .vnull) = true
        ∧ truthy (kv d "contact_email" .vnull) = true
        ∧ (∀ n, pyInt (kv d "series_cells" (.vint 0)) = some n → 0 < n)
        ∧ (∀ q, pyFloat (kv d "pack_capacity_ah" (.vfloat 0 1)) = some q → 0 < q)
        ∧ (∀ q, pyFloat (kv d "max_cont_current_a" (.vfloat 0 1)) = some q → 0 < q)))
    ∧ (∀ lab, lab ∈ missing ↔
        ((lab = "Project / Program Name" ∧ ¬truthy (kv d "project_name" .vnull) = true)
          ∨ (lab = "Company / Team" ∧ ¬truthy (kv d "company" .vnull) = true)
          ∨ (lab = "Primary Contact Email"
              ∧ ¬truthy (kv d "contact_email" .vnull) = true)
          ∨ (lab = "Cells in series (S)"
              ∧ ∃ n, pyInt (kv d "series_cells" (.vint 0)) = some n ∧ ¬0 < n)
          ∨ (lab = "Target pack capacity (Ah)"
              ∧ ∃ q, pyFloat (kv d "pack_capacity_ah" (.vfloat 0 1)) = some q ∧ ¬0 < q)
          ∨ (lab = "Max continuous current (A)"
              ∧ ∃ q, pyFloat (kv d "max_cont_current_a" (.vfloat 0 1)) = some q
                  ∧ ¬0 < q))) := by
  unfold canAdvance at h
  cases h4 : pyInt (kv d "series_cells" (.vint 0)) with
  | none =>
    rw [h4] at h
    simp at h
  | some n =>
    rw [h4] at h
    cases h5 : pyFloat (kv d "pack_capacity_ah" (.vfloat 0 1)) with
    | none =>
      rw [h5] at h
      simp at h
    | some q5 =>
      rw [h5] at h
      cases h6 : pyFloat (kv d "max_cont_current_a" (.vfloat 0 1)) with
      | none =>
        rw [h6] at h
        simp at h
      | some q6 =>
        rw [h6] at h
        simp only [required, Option.some.injEq, Prod.mk.injEq] at h
        obtain ⟨hok, hmiss⟩ := h
        subst hok hmiss
        constructor
        · simp [h4, h5, h6, Bool.and_eq_true, decide_eq_true_eq, and_assoc]
        · intro lab
          by_cases t1 : truthy (kv d "project_name" .vnull) = true <;>
            by_cases t2 : truthy (kv d "company" .vnull) = true <;>
            by_cases t3 : truthy (kv d "contact_email" .vnull) = true <;>
            by_cases t4 : (0 : Int) < n <;>
            by_cases t5 : (0 : ℚ) < q5 <;>
            by_cases t6 : (0 : ℚ) < q6 <;>
            simp [h4, h5, h6, t1, t2, t3, t4, t5, t6, ← not_lt]

/-- Witness for C2's characterization at `c2_ok_doc`, where the gate
returns `(true, [])`. -/
theorem canAdvance_characterization_witness :
    ((true = true) ↔
      (truthy (kv c2_ok_doc "project_name" .vnull) = true
        ∧ truthy (kv c2_ok_doc "company" .vnull) = true
        ∧ truthy (kv c2_ok_doc "contact_email" .vnull) = true
        ∧ (∀ n, pyInt (kv c2_ok_doc "series_cells" (.vint 0)) = some n → 0 < n)
        ∧ (∀ q, pyFloat (kv c2_ok_doc "pack_capacity_ah" (.vfloat 0 1)) = some q → 0 < q)
        ∧ (∀ q, pyFloat (kv c2_ok_doc "max_cont_current_a" (.vfloat 0 1)) = some q
            → 0 < q)))
    ∧ (∀ lab, lab ∈ ([] : List String) ↔
        ((lab = "Project / Program Name"
            ∧ ¬truthy (kv c2_ok_doc "project_name" .vnull) = true)
          ∨ (lab = "Company / Team" ∧ ¬truthy (kv c2_ok_doc "company" .vnull) = true)
          ∨ (lab = "Primary Contact Email"
              ∧ ¬truthy (kv c2_ok_doc "contact_email" .vnull) = true)
          ∨ (lab = "Cells in series (S)"
              ∧ ∃ n, pyInt (kv c2_ok_doc "series_cells" (.vint 0)) = some n ∧ ¬0 < n)
          ∨ (lab = "Target pack capacity (Ah)"
              ∧ ∃ q, pyFloat (kv c2_ok_doc "pack_capacity_ah" (.vfloat 0 1)) = some q
                  ∧ ¬0 < q)
          ∨ (lab = "Max continuous current (A)"
              ∧ ∃ q, pyFloat (kv c2_ok_doc "max_cont_current_a" (.vfloat 0 1)) = some q
                  ∧ ¬0 < q))) :=
  canAdvance_characterization c2_ok_doc true []
    (by simp [canAdvance, c2_ok_doc, kv, List.lookup, pyInt, pyFloat, required, truthy])

/-- **C7.**  With either piece of configuration missing, `append_record`
returns the explicit `(false, "missing configuration")` outcome, attempts
zero network calls, and is total (no unhandled fault). -/
theorem append_record_missing_config (net : Document → Except String Unit)
    (cfg : RemoteConfig) (answers : Document)
    (h : cfg.credentials = none ∨ cfg.sheet_id = none) :
    append_record net cfg answers = ((false, some "missing configuration"), 0) := by
  unfold append_record
  rcases h with h | h
  · rw [h]
  · rw [h]
    cases cfg.credentials <;> rfl

/-- Witness for C7: no credentials configured. -/
theorem append_record_missing_config_witness :
    append_record (fun _ => Except.ok ())
        { credentials := none, sheet_id := some "sheet-1" } []
      = ((false, some "missing configuration"), 0) :=
  append_record_missing_config (fun _ => Except.ok ())
    { credentials := none, sheet_id := some "sheet-1" } [] (Or.inl rfl)

theorem chem_map_get_raising_ok (m : List (String × Value)) (k dflt : Value)
    (h : ∀ l, k ≠ .vlist l) :
    chem_map_get_raising m k dflt = .ok (chem_map_get m k dflt) := by
  cases k
  case vlist l => exact absurd rfl (h l)
  all_goals rfl

/-- **C9 (counterexample).**  The chemistry-table lookup
`st.session_state["chem_cell_nominal_map"].get(chem, 3.6)` (source line
37) runs outside the `try` that begins at line 39: an unhashable list
chemistry makes `dict.get` raise `TypeError`, which escapes
`calc_nominal_pack_voltage` uncaught — the function raises instead of
yielding the null the claim promises. -/
theorem calc_list_chem_raises_counterexample :
    calc_nominal_pack_voltage_full chem_defaults (.vint 1) (.vlist [ "NMC" ])
        (.vfloat 0 1) = .error ()
      ∧ (Except.error () : Except Unit (Option ℚ)) ≠ .ok none :=
  ⟨rfl, fun hcontra => Except.noConfusion hcontra⟩

/-- **C9 (amended).**  For every input triple whose chemistry is hashable
(anything but a list), `calc_nominal_pack_voltage` never raises: it
returns normally, and any computation error inside the `try` — e.g. a
non-numeric series count or override — yields null rather than an
exception.  Only the line-37 table lookup, which runs outside the `try`,
can raise, and only for an unhashable (list) chemistry. -/
theorem calc_handles_errors (m : List (String × Value))
    (series chem override : Value) (h : ∀ l, chem ≠ .vlist l) :
    calc_nominal_pack_voltage_full m series chem override
        = .ok (calc_nominal_pack_voltage m series chem override)
      ∧ (calc_nominal_pack_voltage m series chem override = none
          ↔ calc_nominal_pack_voltage_body m series chem override = .error ()) := by
  refine ⟨?_, calc_error_yields_none m series chem override⟩
  unfold calc_nominal_pack_voltage_full
  rw [chem_map_get_raising_ok m chem (.vfloat 36 1) h]
  unfold calc_nominal_pack_voltage calc_nominal_pack_voltage_body
  cases h1 : toNum (py_or series (.vint 0)) <;>
    cases h2 : toNum (py_or override (chem_map_get m chem (.vfloat 36 1))) <;>
    simp [h1, h2]

/-- Witness for C9's amended theorem at a hashable chemistry and a
non-numeric series count (the `try` body raises, the function returns
null). -/
theorem calc_handles_errors_witness :
    calc_nominal_pack_voltage_full chem_defaults (.vstr "abc") (.vstr "NMC")
        (.vfloat 0 1)
        = .ok (calc_nominal_pack_voltage chem_defaults (.vstr "abc") (.vstr "NMC")
            (.vfloat 0 1))
      ∧ (calc_nominal_pack_voltage chem_defaults (.vstr "abc") (.vstr "NMC")
            (.vfloat 0 1) = none
          ↔ calc_nominal_pack_voltage_body chem_defaults (.vstr "abc") (.vstr "NMC")
              (.vfloat 0 1) = .error ()) :=
  calc_handles_errors chem_defaults (.vstr "abc") (.vstr "NMC") (.vfloat 0 1)
    (fun l => by simp)

/-- **C6 (code bug).**  The source never imports `json` (lines 2-4), so
the program as written can never round-trip: `json.dumps` at line 51
raises an unhandled `NameError` (the export produces no document) and
`json.load` at line 76 raises `NameError` inside the `try` on every
upload, so BulkLoad always takes the failure branch — including on the
perfectly valid JSON printed from `roundtrip_demo_doc`, which the claim
requires to load successfully.  The claim matches the evident intent:
`json_roundtrip` proves the round trip holds of the handler logic once
the missing import is fixed. -/
theorem json_roundtrip_code_bug :
    (∀ d, export_document_actual d = .error ())
      ∧ (∀ s txt, bulkLoad_actual s txt = (s, LoadOutcome.failure))
      ∧ bulkLoad_actual empty_session (String.mk (printDoc roundtrip_demo_doc))
          ≠ ({ empty_session with data := some roundtrip_demo_doc },
              LoadOutcome.success) := by
  refine ⟨fun d => rfl, fun s txt => rfl, ?_⟩
  intro hcontra
  simp [bulkLoad_actual, json_name_lookup, empty_session] at hcontra
